import Mathlib

/-!
Verification of the steam-map tag-embedding pipeline and its read API.

The embedding models `data_processor.py` (tag cleaning, vocabulary and
binary-vector construction via `get_dummies`, L2 row normalization, the
UMAP call treated as an abstract embedder, and the left merge back onto
the catalog) and `app.py` (the paginated read endpoint).

Python strings are modelled as `List Char` so that the comma
splitting/joining done by the source can be reasoned about directly.
-/

/-- A Python string, modelled as its list of characters. -/
abbrev Str : Type := List Char

/-- `s.replace(' ', '_')` for a single-character pattern: every space becomes
an underscore (from `data_processor.py` line 42). -/
def underscoreSpaces (s : Str) : Str :=
  s.map fun c => if c = ' ' then '_' else c

/-- `s.replace(',_', ',')`: Python's left-to-right non-overlapping replacement
of the two-character pattern `",_"` by `","` (from `data_processor.py` line 42). -/
def collapseCommaUnderscore : Str → Str
  | [] => []
  | ',' :: '_' :: rest => ',' :: collapseCommaUnderscore rest
  | c :: rest => c :: collapseCommaUnderscore rest

/-- `games_df['tags'].str.replace(' ', '_').str.replace(',_', ',')`
(`data_processor.py` line 42). -/
def cleanTags (s : Str) : Str :=
  collapseCommaUnderscore (underscoreSpaces s)

/-- Python's `s.split(',')`: splits at every comma; `""` splits to `[""]`. -/
def splitComma : Str → List Str
  | [] => [[]]
  | c :: rest =>
    if c = ',' then [] :: splitComma rest
    else
      match splitComma rest with
      | [] => [[c]]
      | t :: ts => (c :: t) :: ts

/-- Python's `','.join(l)`. -/
def joinComma : List Str → Str
  | [] => []
  | [t] => t
  | t :: ts => t ++ ',' :: joinComma ts

/-- The `EXCLUDED_TAGS` constant of `data_processor.py` line 10. -/
def EXCLUDED_TAGS : List Str :=
  ["Early_Access".toList, "Free_to_Play".toList, "Steam_Machine".toList,
   "Controller".toList]

/-- `','.join([tag for tag in x.split(',') if tag not in EXCLUDED_TAGS])`
(`data_processor.py` lines 55-57). -/
def filterExcluded (s : Str) : Str :=
  joinComma ((splitComma s).filter fun t => !(decide (t ∈ EXCLUDED_TAGS)))

/-- The tag tokens `Series.str.get_dummies(sep=',')` extracts from one row:
the comma-separated fragments, with empty strings discarded (pandas drops
the empty string when collecting dummy columns). -/
def rowTokens (s : Str) : List Str :=
  (splitComma s).filter fun t => !t.isEmpty

/-- One row of the source catalog: identifier and (nullable) raw tag string.
Passthrough metadata columns are irrelevant to every claim and omitted. -/
structure GameRecord where
  game_id : Nat
  tags : Option Str
deriving DecidableEq, Repr

/-- The `cleaned_tags` column: `cleanTags` mapped over the nullable tag
string (`NaN` stays `NaN`). -/
def cleanedTags (r : GameRecord) : Option Str :=
  r.tags.map cleanTags

/-- The row filter `games_df['cleaned_tags'].notna() & (games_df['cleaned_tags'] != "")`
(`data_processor.py` line 45). -/
def hasTags (r : GameRecord) : Bool :=
  match cleanedTags r with
  | none => false
  | some s => !s.isEmpty

/-- `games_with_tags_df` (`data_processor.py` line 45). -/
def taggedRows (games : List GameRecord) : List GameRecord :=
  games.filter hasTags

/-- The `tags_series` passed to vectorization: the cleaned tags of every
tagged row, with excluded tags filtered out (`data_processor.py` lines 55-57). -/
def seriesOf (games : List GameRecord) : List Str :=
  (taggedRows games).map fun r => filterExcluded ((cleanedTags r).getD [])

/-- The dummy columns of `get_dummies(sep=',')`: all distinct non-empty
tokens across the series, in sorted order (pandas sorts the collected tag
set lexicographically). -/
def vocab (series : List Str) : List Str :=
  List.insertionSort (· ≤ ·) (series.flatMap rowTokens).dedup

/-- The vocabulary computed by the pipeline for a given catalog. -/
def vocabOf (games : List GameRecord) : List Str :=
  vocab (seriesOf games)

/-- The column index a tag is mapped to in the binary matrix. -/
def tagIndex (series : List Str) (t : Str) : Nat :=
  (vocab series).findIdx fun u => u == t

/-- One row of the `get_dummies` binary matrix: 1 where the vocabulary tag
occurs among the row's tokens, 0 otherwise. -/
def binaryRow (voc : List Str) (s : Str) : List Nat :=
  voc.map fun t => if t ∈ rowTokens s then 1 else 0

/-- A binary-matrix row as real numbers (the `binary_matrix.values` handed
to `sklearn.preprocessing.normalize`). -/
def featureRow (voc : List Str) (s : Str) : List ℝ :=
  (binaryRow voc s).map Nat.cast

/-- Sum of squares of a row's entries. -/
def sumSq (v : List ℝ) : ℝ :=
  (v.map fun x => x * x).sum

/-- The Euclidean (L2) norm of a row. -/
noncomputable def euclidNorm (v : List ℝ) : ℝ :=
  Real.sqrt (sumSq v)

/-- One row of `normalize(binary_matrix, norm='l2', axis=1)`: the row divided
by its L2 norm; sklearn substitutes 1 for a zero norm, which leaves a
zero row unchanged (`data_processor.py` line 63). -/
noncomputable def l2normalizeRow (v : List ℝ) : List ℝ :=
  if euclidNorm v = 0 then v else v.map fun x => x / euclidNorm v

/-- The binary feature matrix of a catalog. -/
def featureMatrix (games : List GameRecord) : List (List ℝ) :=
  (seriesOf games).map fun s => featureRow (vocabOf games) s

/-- The `normalized_matrix` handed to UMAP. -/
noncomputable def normMatrix (games : List GameRecord) : List (List ℝ) :=
  (featureMatrix games).map l2normalizeRow

/-- The configuration passed to `UMAP(...)` (`data_processor.py` line 68). -/
structure UmapConfig where
  n_components : Nat
  random_state : Nat
  n_neighbors : Nat
  min_dist : ℚ
deriving DecidableEq, Repr

/-- `UMAP(n_components=2, random_state=42, n_neighbors=15, min_dist=0.1)`. -/
def umapConfig : UmapConfig := ⟨2, 42, 15, 1/10⟩

/-- The external reduction capability: configuration and normalized matrix
in, 2D coordinates out.  Treated as a black box, per the spec. -/
def Embedder : Type :=
  UmapConfig → List (List ℝ) → List (ℝ × ℝ)

/-- The `[['game_id', 'x', 'y']]` right side of the merge: each tagged row's
identifier paired with the coordinates assigned to it
(`data_processor.py` lines 68-73, 80). -/
noncomputable def embCoords (emb : Embedder) (games : List GameRecord) :
    List (Nat × ℝ × ℝ) :=
  ((taggedRows games).zip (emb umapConfig (normMatrix games))).map
    fun p => (p.1.game_id, p.2.1, p.2.2)

/-- One row of the output catalog: identifier, the tag column (which the
code overwrites with `cleaned_tags`), and the nullable coordinates. -/
structure OutRow where
  game_id : Nat
  tags : Option Str
  x : Option ℝ
  y : Option ℝ

/-- The output rows a single source row contributes to
`pd.merge(games_df, ..., on='game_id', how='left')`: one row per matching
right-side key, or a single row with null coordinates when no key matches. -/
def rowsFor (coords : List (Nat × ℝ × ℝ)) (r : GameRecord) : List OutRow :=
  match coords.filter fun p => p.1 == r.game_id with
  | [] => [⟨r.game_id, cleanedTags r, none, none⟩]
  | ms => ms.map fun p => ⟨r.game_id, cleanedTags r, some p.2.1, some p.2.2⟩

/-- `final_df`: the left merge of the full catalog with the coordinate
table, with the tag column overwritten by `cleaned_tags`
(`data_processor.py` lines 80-85). -/
def mergeRows (games : List GameRecord) (coords : List (Nat × ℝ × ℝ)) :
    List OutRow :=
  games.flatMap (rowsFor coords)

/-- Diagnostic for an unreadable source catalog (`data_processor.py` lines 94-95). -/
def readErrorMsg : String := "error: source catalog could not be read"

/-- Diagnostic for a catalog with no tagged game (`data_processor.py` lines 48-50). -/
def noTaggedErrorMsg : String := "error: no game with tags was found"

/-- The `main()` pipeline of `data_processor.py`: `none` models an unreadable
source catalog; an `Except.error` models aborting with a diagnostic and no
output artifact; `Except.ok` models writing the merged catalog. -/
noncomputable def pipeline (emb : Embedder) (input : Option (List GameRecord)) :
    Except String (List OutRow) :=
  match input with
  | none => Except.error readErrorMsg
  | some games =>
    if (taggedRows games).isEmpty then Except.error noTaggedErrorMsg
    else Except.ok (mergeRows games (embCoords emb games))

/-- The row selection of `stream_games_from_db` (`app.py` lines 33-43): a
truthy `limit` issues `LIMIT :limit OFFSET :offset`, while `limit` omitted
(`None`) or `0` issues only `OFFSET :offset`. -/
def selectRows {α : Type} (table : List α) (limit : Option Nat) (offset : Nat) :
    List α :=
  match limit with
  | some l => if l = 0 then table.drop offset else (table.drop offset).take l
  | none => table.drop offset

/-- The JSON array the generator streams: `'['`, the rows joined by `','`,
then `']'` (`app.py` lines 51-70). -/
def renderJsonArray (rows : List String) : String :=
  "[" ++ String.intercalate "," rows ++ "]"

/-- The `/api/v1/games` response body over a table of pre-serialized rows
(`app.py` lines 73-82). -/
def streamGames (table : List String) (limit : Option Nat) (offset : Nat) :
    String :=
  renderJsonArray ((selectRows table limit offset))

/-- A constant embedder assigning one coordinate pair. -/
noncomputable def embConst1 : Embedder := fun _ _ => [((0:ℝ), (0:ℝ))]

/-- A constant embedder assigning two coordinate pairs. -/
noncomputable def embConst2 : Embedder := fun _ _ => [((0:ℝ), (0:ℝ)), ((1:ℝ), (1:ℝ))]

/-- A two-row catalog: one tagged game and one with a null tag string. -/
def sampleCat : List GameRecord := [⟨1, some "Action,RPG".toList⟩, ⟨2, none⟩]

/-- A catalog whose two rows share the identifier 1. -/
def dupCat : List GameRecord := [⟨1, some "Action".toList⟩, ⟨1, some "RPG".toList⟩]

/-- A catalog with one entirely-excluded tag string and one ordinary one. -/
def exclCat : List GameRecord := [⟨3, some "Early Access".toList⟩, ⟨4, some "Action".toList⟩]

/-- A two-row catalog, and `permCatB` is the same catalog with the rows swapped. -/
def permCatA : List GameRecord := [⟨1, some "RPG".toList⟩, ⟨2, some "Action".toList⟩]

/-- `permCatA` with its rows in the opposite order. -/
def permCatB : List GameRecord := [⟨2, some "Action".toList⟩, ⟨1, some "RPG".toList⟩]

lemma splitComma_ne_nil (s : Str) : splitComma s ≠ [] := by
  induction s with
  | nil => simp [splitComma]
  | cons c rest ih =>
    by_cases hc : c = ','
    · simp [splitComma, hc]
    · cases h : splitComma rest with
      | nil => simp [splitComma, hc, h]
      | cons t ts => simp [splitComma, hc, h]

lemma no_comma_of_mem_splitComma {s t : Str} (ht : t ∈ splitComma s) : ',' ∉ t := by
  induction s generalizing t with
  | nil =>
    simp only [splitComma, List.mem_singleton] at ht
    simp [ht]
  | cons c rest ih =>
    by_cases hc : c = ','
    · subst hc
      simp only [splitComma, if_pos, List.mem_cons] at ht
      rcases ht with h | h
      · simp [h]
      · exact ih h
    · cases h : splitComma rest with
      | nil => exact absurd h (splitComma_ne_nil rest)
      | cons u us =>
        simp only [splitComma, if_neg hc, h, List.mem_cons] at ht
        rcases ht with h1 | h1
        · subst h1
          intro hmem
          rcases List.mem_cons.mp hmem with h2 | h2
          · exact hc h2.symm
          · exact ih (h ▸ List.mem_cons_self u us) h2
        · exact ih (h ▸ List.mem_cons_of_mem u h1)

lemma splitComma_of_no_comma {t : Str} (h : ',' ∉ t) : splitComma t = [t] := by
  induction t with
  | nil => rfl
  | cons c rest ih =>
    have hc : c ≠ ',' := fun hcc => h (hcc ▸ List.mem_cons_self c rest)
    have hr : ',' ∉ rest := fun hm => h (List.mem_cons_of_mem c hm)
    simp [splitComma, hc, ih hr]

lemma splitComma_append_comma {t : Str} (h : ',' ∉ t) (r : Str) :
    splitComma (t ++ ',' :: r) = t :: splitComma r := by
  induction t with
  | nil => simp [splitComma]
  | cons c rest ih =>
    have hc : c ≠ ',' := fun hcc => h (hcc ▸ List.mem_cons_self c rest)
    have hr : ',' ∉ rest := fun hm => h (List.mem_cons_of_mem c hm)
    simp [splitComma, hc, ih hr]

lemma splitComma_joinComma {l : List Str} (hl : ∀ t ∈ l, ',' ∉ t) (hne : l ≠ []) :
    splitComma (joinComma l) = l := by
  induction l with
  | nil => exact absurd rfl hne
  | cons t ts ih =>
    cases ts with
    | nil => exact splitComma_of_no_comma (hl t (List.mem_cons_self t []))
    | cons t' ts' =>
      have hjoin : joinComma (t :: t' :: ts') = t ++ ',' :: joinComma (t' :: ts') := rfl
      rw [hjoin, splitComma_append_comma (hl t (List.mem_cons_self t _)),
        ih (fun u hu => hl u (List.mem_cons_of_mem t hu)) (by simp)]

lemma not_excluded_of_mem_rowTokens_filterExcluded {s t : Str}
    (h : t ∈ rowTokens (filterExcluded s)) : t ∉ EXCLUDED_TAGS := by
  have hfe : filterExcluded s =
      joinComma ((splitComma s).filter fun u => !(decide (u ∈ EXCLUDED_TAGS))) := rfl
  cases hl : (splitComma s).filter fun u => !(decide (u ∈ EXCLUDED_TAGS)) with
  | nil =>
    rw [hfe, hl] at h
    simp [joinComma, rowTokens, splitComma] at h
  | cons v vs =>
    have hmem : ∀ u ∈ (splitComma s).filter fun u => !(decide (u ∈ EXCLUDED_TAGS)),
        ',' ∉ u := fun u hu => no_comma_of_mem_splitComma (List.mem_filter.mp hu).1
    have hrt : t ∈ (splitComma s).filter fun u => !(decide (u ∈ EXCLUDED_TAGS)) := by
      rw [hfe] at h
      unfold rowTokens at h
      rw [splitComma_joinComma hmem (by rw [hl]; simp)] at h
      exact (List.mem_filter.mp h).1
    have := (List.mem_filter.mp hrt).2
    simpa using this

lemma mem_vocab_iff {series : List Str} {t : Str} :
    t ∈ vocab series ↔ ∃ s ∈ series, t ∈ rowTokens s := by
  unfold vocab
  rw [(List.perm_insertionSort _ _).mem_iff, List.mem_dedup, List.mem_flatMap]

lemma pipeline_ok_iff {emb : Embedder} {games : List GameRecord} {out : List OutRow} :
    pipeline emb (some games) = Except.ok out ↔
      (taggedRows games).isEmpty = false ∧ out = mergeRows games (embCoords emb games) := by
  unfold pipeline
  cases h : (taggedRows games).isEmpty <;> simp [h, eq_comm]

lemma rowsFor_shape {coords : List (Nat × ℝ × ℝ)} {r : GameRecord} {row : OutRow}
    (hrow : row ∈ rowsFor coords r) :
    row.game_id = r.game_id ∧ row.tags = cleanedTags r ∧
      ((row.x = none ∧ row.y = none) ∨ ∃ a b, row.x = some a ∧ row.y = some b) := by
  unfold rowsFor at hrow
  cases h : coords.filter fun p => p.1 == r.game_id with
  | nil =>
    rw [h] at hrow
    simp only [List.mem_singleton] at hrow
    subst hrow
    simp
  | cons m ms =>
    rw [h] at hrow
    simp only [List.mem_map] at hrow
    obtain ⟨p, hp, rfl⟩ := hrow
    exact ⟨rfl, rfl, Or.inr ⟨p.2.1, p.2.2, rfl, rfl⟩⟩

lemma null_row_mem_mergeRows {games : List GameRecord} {coords : List (Nat × ℝ × ℝ)}
    {r : GameRecord} (hr : r ∈ games)
    (hfil : (coords.filter fun p => p.1 == r.game_id) = []) :
    (⟨r.game_id, cleanedTags r, none, none⟩ : OutRow) ∈ mergeRows games coords := by
  unfold mergeRows
  refine List.mem_flatMap.mpr ⟨r, hr, ?_⟩
  unfold rowsFor
  rw [hfil]
  exact List.mem_singleton.mpr rfl

lemma rowsFor_length_of_le_one {coords : List (Nat × ℝ × ℝ)} {r : GameRecord}
    (h : (coords.filter fun p => p.1 == r.game_id).length ≤ 1) :
    (rowsFor coords r).length = 1 := by
  unfold rowsFor
  cases hf : coords.filter fun p => p.1 == r.game_id with
  | nil => simp
  | cons m ms =>
    rw [hf] at h
    simp only [List.length_cons] at h
    have hms : ms = [] := List.eq_nil_of_length_eq_zero (by omega)
    subst hms
    simp

lemma mergeRows_length {games : List GameRecord} {coords : List (Nat × ℝ × ℝ)}
    (h : ∀ k, (coords.filter fun p => p.1 == k).length ≤ 1) :
    (mergeRows games coords).length = games.length := by
  unfold mergeRows
  induction games with
  | nil => rfl
  | cons r rs ih =>
    rw [List.flatMap_cons, List.length_append, ih,
      rowsFor_length_of_le_one (h r.game_id), List.length_cons]
    omega

lemma filter_key_length_le_one {coords : List (Nat × ℝ × ℝ)}
    (h : (coords.map Prod.fst).Nodup) (k : Nat) :
    (coords.filter fun p => p.1 == k).length ≤ 1 := by
  have h1 : (coords.filter fun p => p.1 == k).length =
      ((coords.map Prod.fst).filter fun x => x == k).length := by
    rw [← List.countP_eq_length_filter, ← List.countP_eq_length_filter, List.countP_map]
    rfl
  have h2 : ((coords.map Prod.fst).filter fun x => x == k).length =
      (coords.map Prod.fst).count k := by
    simp [List.count, List.countP_eq_length_filter]
  rw [h1, h2]
  exact List.nodup_iff_count_le_one.mp h k

lemma zip_map_fst_sublist {α β γ : Type _} (f : α → γ) (l₁ : List α) (l₂ : List β) :
    ((l₁.zip l₂).map fun p => f p.1).Sublist (l₁.map f) := by
  induction l₁ generalizing l₂ with
  | nil => simp
  | cons a l ih =>
    cases l₂ with
    | nil => simp
    | cons b l₂' => simpa using (ih l₂').cons₂ (f a)

lemma embCoords_keys_nodup (emb : Embedder) (games : List GameRecord)
    (h : (games.map GameRecord.game_id).Nodup) :
    ((embCoords emb games).map Prod.fst).Nodup := by
  unfold embCoords
  rw [List.map_map]
  have heq : (Prod.fst ∘ fun p : GameRecord × ℝ × ℝ => (p.1.game_id, p.2.1, p.2.2)) =
      fun p : GameRecord × ℝ × ℝ => p.1.game_id := rfl
  rw [heq]
  have hsub :=
    zip_map_fst_sublist GameRecord.game_id (taggedRows games) (emb umapConfig (normMatrix games))
  have hsub2 : ((taggedRows games).map GameRecord.game_id).Sublist
      (games.map GameRecord.game_id) := (List.filter_sublist games).map GameRecord.game_id
  exact List.Nodup.sublist (hsub.trans hsub2) h

lemma key_filter_nil_of_untagged (emb : Embedder) {games : List GameRecord}
    {r : GameRecord} (hr : r ∈ games) (hnr : hasTags r = false)
    (h : (games.map GameRecord.game_id).Nodup) :
    (embCoords emb games).filter (fun p => p.1 == r.game_id) = [] := by
  rw [List.filter_eq_nil_iff]
  intro p hp
  unfold embCoords at hp
  obtain ⟨q, hq, rfl⟩ := List.mem_map.mp hp
  obtain ⟨q1, q2⟩ := q
  have hq1 : q1 ∈ taggedRows games := (List.of_mem_zip hq).1
  have htag : hasTags q1 = true := (List.mem_filter.mp hq1).2
  have hmemg : q1 ∈ games := (List.mem_filter.mp hq1).1
  intro hbeq
  have hid : q1.game_id = r.game_id := by simpa using hbeq
  have : q1 = r := List.inj_on_of_nodup_map h hmemg hr hid
  rw [this, hnr] at htag
  exact Bool.false_ne_true htag

lemma seriesOf_perm {g₁ g₂ : List GameRecord} (h : g₁.Perm g₂) :
    (seriesOf g₁).Perm (seriesOf g₂) :=
  (h.filter hasTags).map _

lemma vocab_perm {s₁ s₂ : List Str} (h : s₁.Perm s₂) : vocab s₁ = vocab s₂ := by
  unfold vocab
  have hperm : (s₁.flatMap rowTokens).dedup.Perm (s₂.flatMap rowTokens).dedup :=
    (h.flatMap_right rowTokens).dedup
  exact List.eq_of_perm_of_sorted
    ((List.perm_insertionSort _ _).trans (hperm.trans (List.perm_insertionSort _ _).symm))
    (List.sorted_insertionSort _ _) (List.sorted_insertionSort _ _)

lemma sumSq_cons (x : ℝ) (v : List ℝ) : sumSq (x :: v) = x * x + sumSq v := by
  simp [sumSq]

lemma sumSq_nonneg (v : List ℝ) : 0 ≤ sumSq v := by
  induction v with
  | nil => simp [sumSq]
  | cons x xs ih => rw [sumSq_cons]; exact add_nonneg (mul_self_nonneg x) ih

lemma sumSq_eq_zero_iff (v : List ℝ) : sumSq v = 0 ↔ ∀ x ∈ v, x = 0 := by
  induction v with
  | nil => simp [sumSq]
  | cons x xs ih =>
    rw [sumSq_cons]
    constructor
    · intro h
      have h1 := (add_eq_zero_iff_of_nonneg (mul_self_nonneg x) (sumSq_nonneg xs)).mp h
      intro y hy
      rcases List.mem_cons.mp hy with rfl | hy'
      · exact mul_self_eq_zero.mp h1.1
      · exact (ih.mp h1.2) y hy'
    · intro h
      have hx : x = 0 := h x (List.mem_cons_self _ _)
      have hxs : sumSq xs = 0 := ih.mpr fun y hy => h y (List.mem_cons_of_mem _ hy)
      rw [hx, hxs]
      ring

lemma euclidNorm_eq_zero_iff (v : List ℝ) : euclidNorm v = 0 ↔ ∀ x ∈ v, x = 0 := by
  unfold euclidNorm
  rw [Real.sqrt_eq_zero (sumSq_nonneg v), sumSq_eq_zero_iff]

lemma sumSq_map_div (v : List ℝ) (c : ℝ) :
    sumSq (v.map fun x => x / c) = sumSq v / (c * c) := by
  induction v with
  | nil => simp [sumSq]
  | cons x xs ih =>
    simp only [List.map_cons, sumSq_cons, ih]
    rw [div_mul_div_comm, add_div]

lemma l2normalizeRow_norm_one {v : List ℝ} (h : ∃ x ∈ v, x ≠ 0) :
    euclidNorm (l2normalizeRow v) = 1 := by
  have hS : sumSq v ≠ 0 := by
    rw [Ne, sumSq_eq_zero_iff]
    obtain ⟨x, hx, hx0⟩ := h
    exact fun hall => hx0 (hall x hx)
  have hSpos : 0 < sumSq v := lt_of_le_of_ne (sumSq_nonneg v) (Ne.symm hS)
  have hn : euclidNorm v ≠ 0 := ne_of_gt (Real.sqrt_pos.mpr hSpos)
  unfold l2normalizeRow
  rw [if_neg hn]
  unfold euclidNorm
  rw [sumSq_map_div]
  rw [Real.mul_self_sqrt (sumSq_nonneg v), div_self hS, Real.sqrt_one]

lemma l2normalizeRow_zero {v : List ℝ} (h : ∀ x ∈ v, x = 0) : l2normalizeRow v = v := by
  unfold l2normalizeRow
  rw [if_pos ((euclidNorm_eq_zero_iff v).mpr h)]

/-- C1 counterexample: a record whose raw tags are "Early Access" is written to
the output catalog with tag column "Early_Access", which is a member of the
exclusion set — so an excluded tag does appear in a cleaned tag set written to
the output catalog's tag column, refuting the claim as stated. -/
theorem c1_excluded_tag_in_output_tag_column :
    pipeline embConst1 (some [⟨7, some ("Early Access".toList)⟩]) =
      Except.ok [⟨7, some ("Early_Access".toList), some 0, some 0⟩]
    ∧ "Early_Access".toList ∈ EXCLUDED_TAGS
    ∧ "Early_Access".toList ∈ rowTokens ("Early_Access".toList) :=
  ⟨rfl, by decide, by decide⟩

/-- C1 (amended): a tag in the exclusion set never appears in the constructed
vocabulary, nor among the tokens of any entry of the vectorization tag series;
the output catalog's tag column, however, is the cleaned-but-unfiltered tag
string and may still contain excluded tags. -/
theorem c1_excluded_tag_never_in_vocabulary (games : List GameRecord) (t : Str)
    (ht : t ∈ EXCLUDED_TAGS) :
    t ∉ vocabOf games ∧ ∀ s ∈ seriesOf games, t ∉ rowTokens s := by
  have hseries : ∀ s ∈ seriesOf games, t ∉ rowTokens s := by
    intro s hs hts
    obtain ⟨r, hr, rfl⟩ := List.mem_map.mp hs
    exact not_excluded_of_mem_rowTokens_filterExcluded hts ht
  refine ⟨?_, hseries⟩
  intro hmem
  obtain ⟨s, hs, hts⟩ := mem_vocab_iff.mp hmem
  exact hseries s hs hts

/-- C1 witness: the excluded tag "Early_Access" is indeed absent from the
vocabulary built for a catalog whose only record carries "Early Access". -/
theorem c1_excluded_tag_never_in_vocabulary_witness :
    "Early_Access".toList ∉ vocabOf [⟨7, some ("Early Access".toList)⟩] :=
  (c1_excluded_tag_never_in_vocabulary [⟨7, some ("Early Access".toList)⟩]
    ("Early_Access".toList) (by decide)).1

/-- C2 counterexample: a record whose raw tag string "Early Access" is entirely
excluded has an empty cleaned tag set (after exclusion filtering), yet it is
kept by the vectorization filter, passed to the embedder as an all-zero row,
and receives non-null coordinates in the output — refuting the claim for the
entirely-excluded case. -/
theorem c2_entirely_excluded_record_gets_coordinates :
    filterExcluded (cleanTags ("Early Access".toList)) = []
    ∧ taggedRows exclCat = exclCat
    ∧ pipeline embConst2 (some exclCat) =
        Except.ok [⟨3, some ("Early_Access".toList), some 0, some 0⟩,
                   ⟨4, some ("Action".toList), some 1, some 1⟩] :=
  ⟨by decide, by decide, rfl⟩

/-- C2 (amended): a record whose cleaned tag string is null or empty (the
code's pre-exclusion test) is excluded from vectorization and, when record
identifiers are unique, appears in the final merged output with null x and
null y; records whose tags are entirely in the exclusion set are NOT excluded
from vectorization. -/
theorem c2_null_or_empty_tag_record_null_coords
    (emb : Embedder) (games : List GameRecord) (r : GameRecord)
    (hr : r ∈ games) (hempty : hasTags r = false)
    (hnodup : (games.map GameRecord.game_id).Nodup) :
    r ∉ taggedRows games ∧
    ∀ out, pipeline emb (some games) = Except.ok out →
      (⟨r.game_id, cleanedTags r, none, none⟩ : OutRow) ∈ out := by
  constructor
  · intro hmem
    have := (List.mem_filter.mp hmem).2
    rw [hempty] at this
    exact Bool.false_ne_true this
  · intro out hout
    obtain ⟨-, rfl⟩ := pipeline_ok_iff.mp hout
    exact null_row_mem_mergeRows hr (key_filter_nil_of_untagged emb hr hempty hnodup)

/-- C2 witness: in the sample catalog the record with a null tag string is
skipped by vectorization and shows up in the concrete pipeline output with
null coordinates. -/
theorem c2_null_or_empty_tag_record_null_coords_witness :
    (⟨2, none⟩ : GameRecord) ∉ taggedRows sampleCat ∧
    (⟨2, (none : Option Str), none, none⟩ : OutRow) ∈
      [(⟨1, some ("Action,RPG".toList), some (0:ℝ), some 0⟩ : OutRow),
       ⟨2, none, none, none⟩] := by
  have h := c2_null_or_empty_tag_record_null_coords embConst1 sampleCat ⟨2, none⟩
    (by decide) (by decide) (by decide)
  exact ⟨h.1, h.2 _ rfl⟩

/-- C3 counterexample: a two-row source catalog whose rows share the same
identifier yields a four-row output catalog — the left join duplicates rows,
refuting the row-count claim for arbitrary input. -/
theorem c3_duplicate_ids_change_row_count :
    (pipeline embConst2 (some dupCat)).map List.length = Except.ok 4
    ∧ dupCat.length = 2 :=
  ⟨rfl, rfl⟩

/-- C3 (amended): when the source catalog's record identifiers are pairwise
distinct, the output catalog of a completed pipeline run has exactly as many
rows as the source catalog. -/
theorem c3_row_count_preserved_for_unique_ids
    (emb : Embedder) (games : List GameRecord) (out : List OutRow)
    (hnodup : (games.map GameRecord.game_id).Nodup)
    (hout : pipeline emb (some games) = Except.ok out) :
    out.length = games.length := by
  obtain ⟨-, rfl⟩ := pipeline_ok_iff.mp hout
  exact mergeRows_length fun k =>
    filter_key_length_le_one (embCoords_keys_nodup emb games hnodup) k

/-- C3 witness: on the concrete two-row sample catalog the pipeline output
also has two rows. -/
theorem c3_row_count_preserved_for_unique_ids_witness :
    ([(⟨1, some ("Action,RPG".toList), some (0:ℝ), some 0⟩ : OutRow),
      ⟨2, none, none, none⟩] : List OutRow).length = sampleCat.length :=
  c3_row_count_preserved_for_unique_ids embConst1 sampleCat _ (by decide) rfl

/-- C4: every row of a completed pipeline's output carries either both
coordinates or neither — x and y are both null or both non-null. -/
theorem c4_coordinates_both_or_neither
    (emb : Embedder) (games : List GameRecord) (out : List OutRow)
    (hout : pipeline emb (some games) = Except.ok out) :
    ∀ row ∈ out, (row.x = none ∧ row.y = none) ∨
      ∃ a b, row.x = some a ∧ row.y = some b := by
  intro row hrow
  obtain ⟨-, rfl⟩ := pipeline_ok_iff.mp hout
  obtain ⟨r, -, hmem⟩ := List.mem_flatMap.mp hrow
  exact (rowsFor_shape hmem).2.2

/-- C4 witness: the null-coordinate row of the concrete sample output
satisfies the both-or-neither property. -/
theorem c4_coordinates_both_or_neither_witness :
    ((⟨2, (none : Option Str), none, none⟩ : OutRow).x = none ∧
      (⟨2, (none : Option Str), none, none⟩ : OutRow).y = none) ∨
    ∃ a b, (⟨2, (none : Option Str), none, none⟩ : OutRow).x = some a ∧
      (⟨2, (none : Option Str), none, none⟩ : OutRow).y = some b :=
  c4_coordinates_both_or_neither embConst1 sampleCat
    [⟨1, some ("Action,RPG".toList), some (0:ℝ), some 0⟩, ⟨2, none, none, none⟩]
    rfl ⟨2, none, none, none⟩ (List.mem_cons_of_mem _ (List.mem_cons_self _ _))

/-- C5: vocabulary construction is order-independent — permuting the catalog
rows leaves the sorted vocabulary and the tag-to-column-index mapping
unchanged. -/
theorem c5_vocabulary_order_independent (g₁ g₂ : List GameRecord)
    (h : g₁.Perm g₂) :
    vocabOf g₁ = vocabOf g₂ ∧
    ∀ t, tagIndex (seriesOf g₁) t = tagIndex (seriesOf g₂) t := by
  have hv : vocab (seriesOf g₁) = vocab (seriesOf g₂) := vocab_perm (seriesOf_perm h)
  exact ⟨hv, fun t => by unfold tagIndex; rw [hv]⟩

/-- C5 witness: swapping the two rows of a concrete catalog leaves the
vocabulary unchanged. -/
theorem c5_vocabulary_order_independent_witness :
    vocabOf permCatA = vocabOf permCatB :=
  (c5_vocabulary_order_independent permCatA permCatB (by decide)).1

/-- C6: an encoder row with at least one non-zero entry normalizes to a row of
Euclidean norm exactly 1; an all-zero encoder row is left unchanged by the
normalizer (and so stays all-zero) — the zero case is not an error. -/
theorem c6_normalized_row_unit_or_zero (voc : List Str) (s : Str) :
    ((∃ x ∈ featureRow voc s, x ≠ 0) →
      euclidNorm (l2normalizeRow (featureRow voc s)) = 1) ∧
    ((∀ x ∈ featureRow voc s, x = 0) →
      l2normalizeRow (featureRow voc s) = featureRow voc s ∧
      ∀ x ∈ l2normalizeRow (featureRow voc s), x = 0) :=
  ⟨fun h => l2normalizeRow_norm_one h,
   fun h => ⟨l2normalizeRow_zero h,
     fun x hx => h x ((l2normalizeRow_zero h) ▸ hx)⟩⟩

/-- C6 witness: the one-tag encoder row [1] normalizes to a unit-norm row. -/
theorem c6_normalized_row_unit_or_zero_witness :
    euclidNorm (l2normalizeRow (featureRow ["Action".toList] ("Action".toList))) = 1 := by
  apply (c6_normalized_row_unit_or_zero ["Action".toList] ("Action".toList)).1
  refine ⟨((1:ℕ):ℝ), ?_, by norm_num⟩
  have hb : binaryRow ["Action".toList] ("Action".toList) = [1] := by decide
  have h : featureRow ["Action".toList] ("Action".toList) = [((1:ℕ):ℝ)] := by
    unfold featureRow
    rw [hb]
    rfl
  rw [h]
  exact List.mem_singleton.mpr rfl

/-- C7 counterexample: on the duplicate-identifier catalog the pipeline
completes (neither abort condition holds) yet the written output catalog is
not full-length — it has 4 rows for a 2-row source — refuting the claim's
clause that a completing run always writes a full-length catalog. -/
theorem c7_completed_run_not_full_length :
    (pipeline embConst2 (some dupCat)).isOk = true
    ∧ (pipeline embConst2 (some dupCat)).map List.length ≠ Except.ok dupCat.length := by
  refine ⟨rfl, ?_⟩
  rw [show (pipeline embConst2 (some dupCat)).map List.length = Except.ok 4 from rfl]
  intro h
  have h4 : (4:ℕ) = dupCat.length := by injection h
  exact absurd h4 (by decide)

/-- C7 (amended): the pipeline aborts with a diagnostic and writes nothing
when the source catalog cannot be read or when no record passes the
tagged-row filter; otherwise it completes and writes an output catalog, which
is full-length whenever the record identifiers are unique. -/
theorem c7_fail_fast_or_complete (emb : Embedder) (games : List GameRecord) :
    pipeline emb none = Except.error readErrorMsg
    ∧ (taggedRows games = [] →
        pipeline emb (some games) = Except.error noTaggedErrorMsg)
    ∧ (taggedRows games ≠ [] →
        ∃ out, pipeline emb (some games) = Except.ok out ∧
          ((games.map GameRecord.game_id).Nodup → out.length = games.length)) := by
  refine ⟨rfl, ?_, ?_⟩
  · intro h
    unfold pipeline
    simp [List.isEmpty_iff, h]
  · intro h
    refine ⟨mergeRows games (embCoords emb games), ?_, ?_⟩
    · exact pipeline_ok_iff.mpr ⟨by simp [List.isEmpty_iff, h], rfl⟩
    · intro hnodup
      exact mergeRows_length fun k =>
        filter_key_length_le_one (embCoords_keys_nodup emb games hnodup) k

/-- C7 witness: concrete runs — unreadable input errors, an untagged catalog
errors, and the sample catalog completes with a full-length output. -/
theorem c7_fail_fast_or_complete_witness :
    pipeline embConst1 none = Except.error readErrorMsg ∧
    pipeline embConst1 (some [⟨9, none⟩]) = Except.error noTaggedErrorMsg ∧
    (pipeline embConst1 (some sampleCat)).map List.length =
      Except.ok sampleCat.length := by
  obtain ⟨h1, h2, -⟩ := c7_fail_fast_or_complete embConst1 [⟨9, none⟩]
  obtain ⟨-, -, g3⟩ := c7_fail_fast_or_complete embConst1 sampleCat
  obtain ⟨out, ho, hl⟩ := g3 (by decide)
  refine ⟨h1, h2 (by decide), ?_⟩
  rw [ho]
  exact congrArg Except.ok (hl (by decide))

/-- C8 counterexample: on a one-row table, a request with limit 0 and offset 0
returns 1 record, not min(0, max(0, 1-0)) = 0 — the claimed count formula
fails for limit 0. -/
theorem c8_zero_limit_breaks_count_formula :
    (selectRows ["row0"] (some 0) 0).length = 1
    ∧ min 0 (List.length ["row0"] - 0) = 0 :=
  ⟨rfl, rfl⟩

/-- C8 (amended): for every requested limit L ≥ 1 and offset O on a table of
size T, the read API returns the contiguous slice of L records starting at O
in underlying order — exactly min(L, max(0, T-O)) records — and for any limit
an offset beyond the table yields the empty JSON array rather than an error. -/
theorem c8_pagination_count_for_positive_limit
    (table : List String) (L O : Nat) (hL : 1 ≤ L) :
    selectRows table (some L) O = (table.drop O).take L ∧
    (selectRows table (some L) O).length = min L (table.length - O) ∧
    ∀ limit, table.length ≤ O → streamGames table limit O = "[]" := by
  have hL0 : L ≠ 0 := Nat.one_le_iff_ne_zero.mp hL
  refine ⟨by simp [selectRows, hL0], ?_, ?_⟩
  · simp [selectRows, hL0, List.length_take, List.length_drop]
  · intro limit hO
    have hdrop : table.drop O = [] := List.drop_eq_nil_of_le hO
    have hsel : selectRows table limit O = [] := by
      cases limit with
      | none => simpa [selectRows] using hdrop
      | some l =>
        by_cases hl : l = 0 <;> simp [selectRows, hl, hdrop]
    unfold streamGames
    rw [hsel]
    rfl

/-- C8 witness: limit 2, offset 1 on a three-row table returns the middle
slice of length min(2, 3-1) = 2, and offset 5 returns the empty array. -/
theorem c8_pagination_count_for_positive_limit_witness :
    selectRows ["a", "b", "c"] (some 2) 1 = ["b", "c"] ∧
    (selectRows ["a", "b", "c"] (some 2) 1).length =
      min 2 (List.length ["a", "b", "c"] - 1) ∧
    streamGames ["a", "b", "c"] (some 2) 5 = "[]" := by
  obtain ⟨h1, h2, -⟩ := c8_pagination_count_for_positive_limit ["a", "b", "c"] 2 1 (by decide)
  obtain ⟨-, -, h3⟩ := c8_pagination_count_for_positive_limit ["a", "b", "c"] 2 5 (by decide)
  exact ⟨h1.trans rfl, h2, h3 (some 2) (by decide)⟩

/-- C9: with the fixed seeded configuration (random_state 42), two pipeline
runs over the identical catalog whose embedders agree on the computed
normalized matrix produce identical outputs — the embedder is the only source
of variation between runs. -/
theorem c9_fixed_seed_runs_identical
    (e₁ e₂ : Embedder) (games : List GameRecord)
    (h : e₁ umapConfig (normMatrix games) = e₂ umapConfig (normMatrix games)) :
    umapConfig.random_state = 42 ∧
    pipeline e₁ (some games) = pipeline e₂ (some games) := by
  refine ⟨rfl, ?_⟩
  have hc : embCoords e₁ games = embCoords e₂ games := by
    unfold embCoords
    rw [h]
  show (if (taggedRows games).isEmpty = true then Except.error noTaggedErrorMsg
      else Except.ok (mergeRows games (embCoords e₁ games))) =
    (if (taggedRows games).isEmpty = true then Except.error noTaggedErrorMsg
      else Except.ok (mergeRows games (embCoords e₂ games)))
  rw [hc]

/-- C9 witness: a run is identical to itself on the sample catalog. -/
theorem c9_fixed_seed_runs_identical_witness :
    pipeline embConst1 (some sampleCat) = pipeline embConst1 (some sampleCat) :=
  (c9_fixed_seed_runs_identical embConst1 embConst1 sampleCat rfl).2

/-- C10: when the limit parameter is omitted (None) or equals 0 it is falsy,
the query carries no LIMIT clause, and the response contains every row of the
table from the offset onward rather than zero rows. -/
theorem c10_falsy_limit_returns_all_rows (table : List String) (offset : Nat) :
    selectRows table none offset = table.drop offset ∧
    selectRows table (some 0) offset = table.drop offset :=
  ⟨rfl, rfl⟩

-- Concrete evaluation checks of the embedding, mirroring the spec's worked
-- example and the behavior of the pandas/SQL operations being modelled.
example : cleanTags "Action, RPG".toList = "Action,RPG".toList := by decide
example : cleanTags "Early Access".toList = "Early_Access".toList := by decide
example : filterExcluded "Early_Access".toList = [] := by decide
example : filterExcluded "Action,Early_Access,RPG".toList = "Action,RPG".toList := by decide
example : rowTokens "".toList = [] := by decide
example : rowTokens "Action,RPG".toList = ["Action".toList, "RPG".toList] := by decide
example : vocab ["Action,RPG".toList, "Action,Indie".toList] =
    ["Action".toList, "Indie".toList, "RPG".toList] := by decide
example : binaryRow ["Action".toList, "Indie".toList, "RPG".toList] "Action,RPG".toList =
    [1, 0, 1] := by decide
example : taggedRows [⟨1, some "Action".toList⟩, ⟨2, none⟩, ⟨3, some [] ⟩] =
    [⟨1, some "Action".toList⟩] := by decide
example : selectRows ["a", "b", "c"] (some 2) 1 = ["b", "c"] := by decide
example : selectRows ["a", "b", "c"] (some 0) 1 = ["b", "c"] := by decide
example : selectRows ["a", "b", "c"] none 3 = [] := by decide
example : streamGames ["a"] (some 1) 5 = "[]" := rfl
